import Mathlib

/-!
Verification development for the Kinzy AI game-generator backend
(`main.py`).  The Python program is shallowly embedded: Python strings are
`String` (lists of unicode code points), the flat-file game store is an
association list keyed by the file stem, and the two HTTP handlers
`generate_game` / `get_game` are total Lean functions.  The external
Gemini call is an oracle value (`Except String String`): `Except.error e`
models the client library raising an exception whose `str` is `e`, and
`Except.ok raw` models a successful call whose `response.text` is `raw`.
-/

namespace Kinzy

/-- Python whitespace predicate restricted to the ASCII range, the set
stripped by `str.strip()` and by `int(s, 16)` (space, tab, linefeed,
carriage return, vertical tab, form feed). -/
def isPyWs (c : Char) : Bool :=
  (c == ' ') || (c == '\t') || (c == '\n') || (c == '\r') ||
    (c.toNat == 11) || (c.toNat == 12)

/-- Strip characters satisfying `p` from both ends of a character list,
the semantics of Python `str.strip`. -/
def stripEnds (p : Char → Bool) (l : List Char) : List Char :=
  ((l.dropWhile p).reverse.dropWhile p).reverse

/-- Python `str.strip()` (ASCII whitespace). -/
def pyStrip (s : String) : String :=
  ⟨stripEnds isPyWs s.data⟩

/-- Boolean test that `pat` is an initial segment of `l`; used for the
semantics of Python `str.startswith`. -/
def leadsWith : List Char → List Char → Bool
  | [], _ => true
  | _ :: _, [] => false
  | p :: ps, c :: cs => (p == c) && leadsWith ps cs

/-- Python `s.startswith(t)`. -/
def pyStartsWith (s t : String) : Bool :=
  leadsWith t.data s.data

/-- Python `s.endswith(t)`. -/
def pyEndsWith (s t : String) : Bool :=
  leadsWith t.data.reverse s.data.reverse

/-- Python slice `s[n:]`. -/
def pyDropStart (s : String) (n : Nat) : String :=
  ⟨s.data.drop n⟩

/-- Python slice `s[:-n]` for `n ≤ len(s)`. -/
def pyDropEnd (s : String) (n : Nat) : String :=
  ⟨s.data.take (s.data.length - n)⟩

/-- Python `str.lower()` restricted to ASCII letters (the only characters
the validated prefix contains). -/
def pyLower (s : String) : String :=
  ⟨s.data.map Char.toLower⟩

/-- Universal-newline decoding performed by Python text-mode reads:
`Path.read_text` opens with `newline=None`, so every `"\r\n"` pair and
every lone `"\r"` in the file comes back as `"\n"`. -/
def univNewlines : List Char → List Char
  | [] => []
  | [c] => if c = '\r' then ['\n'] else [c]
  | c1 :: c2 :: rest =>
      if c1 = '\r' then
        if c2 = '\n' then '\n' :: univNewlines rest
        else '\n' :: univNewlines (c2 :: rest)
      else c1 :: univNewlines (c2 :: rest)

/-- Python `Path.read_text(encoding="utf-8")` applied to a file holding
`s`: the stored text with universal-newline translation.  (On POSIX the
matching `write_text` is verbatim: text-mode writing maps `"\n"` to
`os.linesep`, the identity there.) -/
def pyReadText (s : String) : String :=
  ⟨univNewlines s.data⟩

/-- Fuel-indexed scan removing every non-overlapping occurrence of the
pattern `p :: ps` from the list, left to right.  Each step consumes at
least one character, so any `fuel` at least the list's length gives the
semantics of Python `str.replace(pat, "")`; the fuel only makes the
recursion structural. -/
def removeAllFuel (p : Char) (ps : List Char) : Nat → List Char → List Char
  | _, [] => []
  | 0, l => l
  | fuel + 1, c :: rest =>
      if leadsWith (p :: ps) (c :: rest) = true then
        removeAllFuel p ps fuel (rest.drop ps.length)
      else
        c :: removeAllFuel p ps fuel rest

/-- Remove every non-overlapping occurrence of the nonempty pattern
`p :: ps` from `l`, scanning left to right: the semantics of Python
`str.replace(pat, "")`. -/
def removeAll (p : Char) (ps l : List Char) : List Char :=
  removeAllFuel p ps l.length l

/-- The fence-stripping block of `generate_game` (`main.py` lines
106–115): strip, two independent leading-marker checks, one trailing
check, strip again.  Note the second leading check is a separate `if`,
not an `elif`. -/
def sanitizeFences (s : String) : String :=
  let t0 := pyStrip s
  let t1 := if pyStartsWith t0 "```html" = true then pyDropStart t0 7 else t0
  let t2 := if pyStartsWith t1 "```" = true then pyDropStart t1 3 else t1
  let t3 := if pyEndsWith t2 "```" = true then pyDropEnd t2 3 else t2
  pyStrip t3

/-- The prefix validation of `generate_game` (line 118):
`html_content.lower().startswith("<!doctype html")`. -/
def isValidHtmlDoc (s : String) : Bool :=
  pyStartsWith (pyLower s) "<!doctype html"

/-- Hexadecimal digit value of a character, as accepted by Python
`int(s, 16)` (decimal digits, lowercase and uppercase `a`–`f`). -/
def hexVal? (c : Char) : Option Nat :=
  if 48 ≤ c.toNat ∧ c.toNat ≤ 57 then some (c.toNat - 48)
  else if 97 ≤ c.toNat ∧ c.toNat ≤ 102 then some (c.toNat - 87)
  else if 65 ≤ c.toNat ∧ c.toNat ≤ 70 then some (c.toNat - 55)
  else none

/-- Accumulator loop for `int(s, 16)` digit parsing: a single underscore
is permitted between two digits, nowhere else. -/
def hexGo (acc : Nat) : List Char → Option Nat
  | [] => some acc
  | c :: rest =>
      if c = '_' then
        match rest with
        | [] => none
        | c2 :: rest2 =>
            match hexVal? c2 with
            | some d => hexGo (16 * acc + d) rest2
            | none => none
      else
        match hexVal? c with
        | some d => hexGo (16 * acc + d) rest
        | none => none

/-- Nonempty digit string for `int(s, 16)`: the first character must be a
hex digit, the rest follow the underscore rule. -/
def hexDigits? : List Char → Option Nat
  | [] => none
  | c :: rest =>
      match hexVal? c with
      | some d => hexGo d rest
      | none => none

/-- Digit part after an optional `0x` base tag: one underscore may
directly follow the tag. -/
def hexTail? : List Char → Option Nat
  | [] => none
  | c :: rest => if c = '_' then hexDigits? rest else hexDigits? (c :: rest)

/-- Body of `int(s, 16)` after sign handling: an optional `0x`/`0X` base
tag followed by digits. -/
def hexBody? (l : List Char) : Option Nat :=
  match l with
  | c1 :: c2 :: rest =>
      if c1 = '0' ∧ (c2 = 'x' ∨ c2 = 'X') then hexTail? rest
      else hexDigits? (c1 :: c2 :: rest)
  | l2 => hexDigits? l2

/-- Python `int(s, 16)` on a character list: strip whitespace, optional
sign, optional base tag, digits; `none` models `ValueError`. -/
def pyInt16? (l : List Char) : Option Int :=
  match stripEnds isPyWs l with
  | [] => none
  | c :: rest =>
      if c = '+' then (hexBody? rest).map (fun m => (m : Int))
      else if c = '-' then (hexBody? rest).map (fun m => -(m : Int))
      else (hexBody? (c :: rest)).map (fun m => (m : Int))

/-- Character is an ASCII brace, the set stripped by `str.strip('\x7b\x7d')`
in the CPython `uuid.UUID` constructor. -/
def isBrace (c : Char) : Bool :=
  (c == '{') || (c == '}')

/-- Acceptance test of the CPython `uuid.UUID(hex=s)` constructor, the
check performed by `get_game` (line 147): delete every occurrence of
`urn:` and then of `uuid:`, strip surrounding braces, delete hyphens,
require exactly 32 remaining characters, parse them with `int(_, 16)`
and require the value to be a 128-bit natural. -/
def pyUUIDok (s : String) : Bool :=
  let h1 := removeAll 'u' ['u', 'i', 'd', ':'] (removeAll 'u' ['r', 'n', ':'] s.data)
  let h2 := stripEnds isBrace h1
  let h3 := removeAll '-' [] h2
  if h3.length = 32 then
    match pyInt16? h3 with
    | some n => decide (0 ≤ n ∧ n < (2 : Int) ^ 128)
    | none => false
  else false

/-- Lowercase hexadecimal digit character for `d < 16`, as produced by
Python's `%x` rendering inside `str(uuid.UUID(...))`. -/
def toHexChar (d : Nat) : Char :=
  if d < 10 then Char.ofNat (48 + d) else Char.ofNat (87 + d)

/-- Fixed-width lowercase hexadecimal rendering of a natural number,
most significant digit first. -/
def natToHexFixed : Nat → Nat → List Char
  | 0, _ => []
  | k + 1, n => natToHexFixed k (n / 16) ++ [toHexChar (n % 16)]

/-- Characters of `str(uuid.UUID(int = n % 2^128))`: the canonical
8-4-4-4-12 hyphenated lowercase rendering of a 128-bit value.  `n` models
the random 128-bit draw of `uuid.uuid4()` (the fixed version/variant bits
only restrict which values of `n` occur, which no theorem here needs). -/
def uuidChars (n : Nat) : List Char :=
  let h := natToHexFixed 32 (n % 2 ^ 128)
  h.take 8 ++ '-' :: ((h.drop 8).take 4 ++ '-' :: ((h.drop 12).take 4 ++
    '-' :: ((h.drop 16).take 4 ++ '-' :: h.drop 20)))

/-- The string `str(uuid.uuid4())` for random draw `n`. -/
def uuidStr (n : Nat) : String :=
  ⟨uuidChars n⟩

/-- The flat-file store `GAMES_DIR`: one entry per file stem, value the
file's text.  `write_text` overwrites, so a stem maps to at most one
document. -/
abbrev GameStore := List (String × String)

/-- Existence check and raw content of the file `<game_id>.html`:
`none` models `Path.exists()` being false; `some` carries the file's
text exactly as `write_text` stored it (the `read_text` newline
translation is applied at the read site, in `get_game`). -/
def lookupStore : GameStore → String → Option String
  | [], _ => none
  | (k, v) :: rest, gid => if k = gid then some v else lookupStore rest gid

/-- Filesystem write of `<game_id>.html` via `Path.write_text`, which
replaces any existing file of the same name. -/
def writeStore (store : GameStore) (gid doc : String) : GameStore :=
  (gid, doc) :: store.filter (fun p => p.1 != gid)

/-- The `GameResponse` pydantic model (lines 79–83). -/
structure GameResponse where
  game_id : String
  message : String
  play_url : String
deriving DecidableEq

/-- Outcome of `POST /api/generate`: a `GameResponse` body or an
`HTTPException` with status code and detail string. -/
inductive GenerateResult where
  | ok (resp : GameResponse)
  | httpError (status : Nat) (detail : String)
deriving DecidableEq

/-- Outcome of `GET /api/game/{game_id}`: the stored HTML text or an
`HTTPException`. -/
inductive GetGameResult where
  | ok (content : String)
  | httpError (status : Nat) (detail : String)
deriving DecidableEq

/-- The pydantic `GameRequest` constraint (lines 71–76):
`min_length=10, max_length=1000` on the `prompt` string, counted in
characters. -/
def validGameRequest (prompt : String) : Bool :=
  decide (10 ≤ prompt.length ∧ prompt.length ≤ 1000)

/-- Body of the `generate_game` handler (lines 89–139) after request
validation.  `genOutcome` is the oracle for the Gemini call; `entropy`
is the random draw behind `uuid.uuid4()`.  The inner
`HTTPException(500, "Generated content is not valid HTML")` raised on
the prefix-check failure is itself caught by the handler's blanket
`except Exception` clause and re-raised as
`HTTPException(500, "Failed to generate game: " + str(e))`, where
`str` of a starlette `HTTPException` renders as `"500: <detail>"`. -/
def generate_game (store : GameStore) (genOutcome : Except String String)
    (entropy : Nat) : GameStore × GenerateResult :=
  match genOutcome with
  | Except.error e =>
      (store, GenerateResult.httpError 500 ("Failed to generate game: " ++ e))
  | Except.ok raw =>
      let html_content := sanitizeFences raw
      if isValidHtmlDoc html_content = true then
        let game_id := uuidStr entropy
        (writeStore store game_id html_content,
          GenerateResult.ok
            { game_id := game_id
              message := "Game generated successfully!"
              play_url := "/api/game/" ++ game_id })
      else
        (store, GenerateResult.httpError 500
          "Failed to generate game: 500: Generated content is not valid HTML")

/-- The `POST /api/generate` endpoint: FastAPI first runs the pydantic
`GameRequest` validation and rejects an invalid body with a 422 response
before the handler (and hence the Gemini call) runs. -/
def postGenerate (store : GameStore) (prompt : String)
    (genOutcome : Except String String) (entropy : Nat) :
    GameStore × GenerateResult :=
  if validGameRequest prompt = true then generate_game store genOutcome entropy
  else (store, GenerateResult.httpError 422 "Invalid request body")

/-- The `get_game` handler (lines 142–156): `uuid.UUID(game_id)` shape
check, then existence check on `<game_id>.html` using the original
string verbatim, then `game_path.read_text(encoding="utf-8")` — a
text-mode read, so the served body is the stored text after
universal-newline translation. -/
def get_game (store : GameStore) (game_id : String) : GetGameResult :=
  if pyUUIDok game_id = true then
    match lookupStore store game_id with
    | some content => GetGameResult.ok (pyReadText content)
    | none => GetGameResult.httpError 404 "Game not found"
  else GetGameResult.httpError 400 "Invalid game ID format"

/-- A single API operation against the store: a generation request (with
its prompt, its mocked generation outcome and its random draw) or a
retrieval. -/
inductive Op where
  | generate (prompt : String) (genOutcome : Except String String) (entropy : Nat)
  | retrieve (game_id : String)

/-- Store effect of one operation; `get_game` never writes. -/
def applyOp (store : GameStore) : Op → GameStore
  | Op.generate prompt genOutcome entropy =>
      (postGenerate store prompt genOutcome entropy).1
  | Op.retrieve _ => store

/-- Store after a sequence of operations. -/
def runOps : GameStore → List Op → GameStore
  | store, [] => store
  | store, op :: rest => runOps (applyOp store op) rest

/-- The write-time store invariant of the spec: every stem present maps
to exactly one document (no duplicate keys) and every stored document
passes the HTML-declaration prefix check. -/
def storeInvariant (store : GameStore) : Prop :=
  (∀ p ∈ store, isValidHtmlDoc p.2 = true) ∧ (store.map Prod.fst).Nodup

/-- Modelled from the spec, for claim C2 only: the sanitizer with the
spec's steps 2–3 read as mutually exclusive — the leading bare fence is
stripped only when (`else if`) the 7-character `html` fence was not. -/
def sanitizeFencesSpec (s : String) : String :=
  let t0 := pyStrip s
  let t1 := if pyStartsWith t0 "```html" = true then pyDropStart t0 7
            else if pyStartsWith t0 "```" = true then pyDropStart t0 3 else t0
  let t2 := if pyEndsWith t1 "```" = true then pyDropEnd t1 3 else t1
  pyStrip t2

/-- Amended spec step 2 as its own pass: strip a leading `html` fence. -/
def stripOpenHtml (t : String) : String :=
  if pyStartsWith t "```html" = true then pyDropStart t 7 else t

/-- Amended spec step 3 as its own pass, applied unconditionally after
step 2: strip a leading bare fence. -/
def stripOpenBare (t : String) : String :=
  if pyStartsWith t "```" = true then pyDropStart t 3 else t

/-- Spec step 4 as its own pass: strip a trailing bare fence. -/
def stripCloseFence (t : String) : String :=
  if pyEndsWith t "```" = true then pyDropEnd t 3 else t

/-- The amended claim-C2 description of the sanitizer: trim, then the
four passes applied in sequence with no mutual exclusion, then trim. -/
def sanitizeFencesAmended (s : String) : String :=
  pyStrip (stripCloseFence (stripOpenBare (stripOpenHtml (pyStrip s))))

theorem dropWhile_self {α : Type} (p : α → Bool) (l : List α) :
    (l.dropWhile p).dropWhile p = l.dropWhile p := by
  induction l with
  | nil => rfl
  | cons c rest ih =>
      by_cases h : p c = true
      · simpa [List.dropWhile_cons, h] using ih
      · simp [List.dropWhile_cons, h]

theorem dropWhile_head_false {α : Type} (p : α → Bool) (l : List α) :
    ∀ {c : α} {rest : List α}, l.dropWhile p = c :: rest → p c = false := by
  induction l with
  | nil => intro c rest h; cases h
  | cons a as ih =>
      intro c rest h
      by_cases ha : p a = true
      · exact ih (by simpa [List.dropWhile_cons, ha] using h)
      · rw [List.dropWhile_cons, if_neg ha] at h
        injection h with h1 _
        subst h1
        simpa using ha

theorem stripEnds_drop (p : Char → Bool) (l : List Char) :
    (stripEnds p l).dropWhile p = stripEnds p l := by
  unfold stripEnds
  cases hb : (l.dropWhile p).reverse.dropWhile p with
  | nil => simp
  | cons c bs =>
      have hsfx : (c :: bs) <:+ (l.dropWhile p).reverse := by
        rw [← hb]; exact List.dropWhile_suffix p
      have hpre : (c :: bs).reverse <+: l.dropWhile p := by
        rw [← List.reverse_suffix]
        simpa using hsfx
      obtain ⟨r, hr⟩ := hpre
      cases hrev : (c :: bs).reverse with
      | nil => exact absurd (congrArg List.length hrev) (by simp)
      | cons d w =>
          have ha : l.dropWhile p = d :: (w ++ r) := by
            rw [← hr, hrev]; simp
          have hd : p d = false := dropWhile_head_false p l ha
          rw [List.dropWhile_cons, if_neg (by simp [hd])]

theorem stripEnds_dropRev (p : Char → Bool) (l : List Char) :
    (stripEnds p l).reverse.dropWhile p = (stripEnds p l).reverse := by
  unfold stripEnds
  rw [List.reverse_reverse]
  exact dropWhile_self p _

theorem stripEnds_self (p : Char → Bool) (l : List Char) :
    stripEnds p (stripEnds p l) = stripEnds p l := by
  show ((((stripEnds p l).dropWhile p).reverse).dropWhile p).reverse = stripEnds p l
  rw [stripEnds_drop, stripEnds_dropRev, List.reverse_reverse]

theorem pyStrip_self (s : String) : pyStrip (pyStrip s) = pyStrip s := by
  unfold pyStrip
  exact congrArg String.mk (stripEnds_self isPyWs s.data)

/-- Claim C9: on any raw text whose trimmed form neither starts with a
fence marker (7-character or bare) nor ends with one, the unwrap-fence
logic of `generate_game` returns the trimmed text unchanged, and hence
applying it twice equals applying it once. -/
theorem c9_sanitizer_fixed_on_fence_free (raw : String)
    (h1 : pyStartsWith (pyStrip raw) "```html" = false)
    (h2 : pyStartsWith (pyStrip raw) "```" = false)
    (h3 : pyEndsWith (pyStrip raw) "```" = false) :
    sanitizeFences raw = pyStrip raw ∧
      sanitizeFences (sanitizeFences raw) = sanitizeFences raw := by
  have key : sanitizeFences raw = pyStrip raw := by
    simp [sanitizeFences, h1, h2, h3, pyStrip_self]
  refine ⟨key, ?_⟩
  rw [key]
  simp [sanitizeFences, pyStrip_self, h1, h2, h3]

theorem c9_witness :
    pyStartsWith (pyStrip " <!DOCTYPE html><html></html> ") "```html" = false ∧
    pyStartsWith (pyStrip " <!DOCTYPE html><html></html> ") "```" = false ∧
    pyEndsWith (pyStrip " <!DOCTYPE html><html></html> ") "```" = false ∧
    (sanitizeFences " <!DOCTYPE html><html></html> " =
        pyStrip " <!DOCTYPE html><html></html> " ∧
      sanitizeFences (sanitizeFences " <!DOCTYPE html><html></html> ") =
        sanitizeFences " <!DOCTYPE html><html></html> ") :=
  ⟨by decide, by decide, by decide,
    c9_sanitizer_fixed_on_fence_free " <!DOCTYPE html><html></html> "
      (by decide) (by decide) (by decide)⟩

/-- Claim C2, counterexample: the code's two opening-marker strips are
not mutually exclusive.  On a raw text opening with both markers the
code removes both while the spec's `else` reading removes only the
first. -/
theorem c2_counterexample :
    sanitizeFences "```html```<!doctype html>" ≠
      sanitizeFencesSpec "```html```<!doctype html>" := by
  decide

/-- Claim C2 as amended: the sanitizer applies the two opening-marker
strips in sequence as independent checks (not `else`-guarded), then the
trailing strip, then the final trim. -/
theorem c2_sequential_strips :
    ∀ s, sanitizeFences s = sanitizeFencesAmended s :=
  fun _ => rfl

/-- Claim C3, code evaluated at the failing input: when the sanitized
model output fails the HTML prefix check, the handler's inner
`HTTPException(500, "Generated content is not valid HTML")` is caught by
its own blanket `except Exception` clause, so the served 500 detail is
the wrapped text, not the fixed message the spec states. -/
theorem c3_wrapped_detail :
    postGenerate [] "please make a counting game"
        (Except.ok "<p>not a document</p>") 0 =
      ([], GenerateResult.httpError 500
        "Failed to generate game: 500: Generated content is not valid HTML") := by
  decide

/-- Claim C4: the request boundary accepts a prompt exactly when its
length lies in [10, 1000]; a prompt outside that range is rejected with
a validation error, the store is untouched, and the outcome does not
depend on the generation oracle — no external call is consulted. -/
theorem c4_prompt_validation (prompt : String) :
    (validGameRequest prompt = true ↔
      (10 ≤ prompt.length ∧ prompt.length ≤ 1000)) ∧
    (validGameRequest prompt = false →
      ∀ (store : GameStore) (g1 g2 : Except String String) (e1 e2 : Nat),
        postGenerate store prompt g1 e1 =
          (store, GenerateResult.httpError 422 "Invalid request body") ∧
        postGenerate store prompt g1 e1 = postGenerate store prompt g2 e2) := by
  constructor
  · simp [validGameRequest]
  · intro hf store g1 g2 e1 e2
    constructor <;> simp [postGenerate, hf]

theorem c4_witness :
    validGameRequest "short" = false ∧
      postGenerate [] "short" (Except.ok "x") 0 =
        ([], GenerateResult.httpError 422 "Invalid request body") :=
  ⟨by decide, ((c4_prompt_validation "short").2 (by decide) []
    (Except.ok "x") (Except.error "y") 0 0).1⟩

/-- Claim C5: an identifier string rejected by the `uuid.UUID`
constructor always yields the 400 malformed-id error, for every possible
store state — so the store is never consulted and the outcome is never
the 404 not-found error. -/
theorem c5_malformed_id (game_id : String) (h : pyUUIDok game_id = false) :
    ∀ store : GameStore,
      get_game store game_id = GetGameResult.httpError 400 "Invalid game ID format" := by
  intro store
  simp [get_game, h]

theorem c5_witness :
    pyUUIDok "not-a-uuid" = false ∧
      get_game [("game", "doc")] "not-a-uuid" =
        GetGameResult.httpError 400 "Invalid game ID format" :=
  ⟨by decide, c5_malformed_id "not-a-uuid" (by decide) [("game", "doc")]⟩

/-- Claim C6: an identifier string the `uuid.UUID` constructor accepts
but that has no stored document always yields the 404 not-found error —
never a crash (the handler is a total function), never an empty success,
never the 400 malformed-id error. -/
theorem c6_unknown_id (store : GameStore) (game_id : String)
    (h1 : pyUUIDok game_id = true) (h2 : lookupStore store game_id = none) :
    get_game store game_id = GetGameResult.httpError 404 "Game not found" := by
  simp [get_game, h1, h2]

set_option maxRecDepth 40000 in
theorem c6_witness :
    get_game [] "123e4567-e89b-12d3-a456-426614174000" =
      GetGameResult.httpError 404 "Game not found" :=
  c6_unknown_id [] "123e4567-e89b-12d3-a456-426614174000" (by decide) rfl

/-- Claim C8: a generation request that ends in any error outcome —
validation failure, generation-call failure or sanitization failure —
leaves the store exactly as it was: the document write happens only
after full sanitization succeeds. -/
theorem c8_failure_leaves_store (store : GameStore) (prompt : String)
    (g : Except String String) (entropy status : Nat) (detail : String)
    (h : (postGenerate store prompt g entropy).2 =
      GenerateResult.httpError status detail) :
    (postGenerate store prompt g entropy).1 = store := by
  by_cases hv : validGameRequest prompt = true
  · cases g with
    | error e => simp [postGenerate, hv, generate_game]
    | ok raw =>
        by_cases hh : isValidHtmlDoc (sanitizeFences raw) = true
        · simp [postGenerate, hv, generate_game, hh] at h
        · simp [postGenerate, hv, generate_game, hh]
  · have hv2 : validGameRequest prompt = false := by simpa using hv
    simp [postGenerate, hv2]

theorem c8_witness :
    (postGenerate [("a", "b")] "please make a counting game"
        (Except.error "boom") 0).2 =
      GenerateResult.httpError 500 "Failed to generate game: boom" ∧
    (postGenerate [("a", "b")] "please make a counting game"
        (Except.error "boom") 0).1 = [("a", "b")] :=
  ⟨by decide, c8_failure_leaves_store [("a", "b")] "please make a counting game"
    (Except.error "boom") 0 500 "Failed to generate game: boom" (by decide)⟩

theorem toHexChar_hexVal : ∀ d, d < 16 → hexVal? (toHexChar d) = some d := by
  decide

theorem toHexChar_notSpecial : ∀ d, d < 16 →
    isPyWs (toHexChar d) = false ∧ isBrace (toHexChar d) = false ∧
    toHexChar d ≠ 'u' ∧ toHexChar d ≠ '-' ∧ toHexChar d ≠ '+' ∧
    toHexChar d ≠ 'x' ∧ toHexChar d ≠ 'X' ∧ toHexChar d ≠ '_' := by
  decide

theorem natToHexFixed_length : ∀ (k n : Nat), (natToHexFixed k n).length = k := by
  intro k
  induction k with
  | zero => intro n; rfl
  | succ k ih => intro n; simp [natToHexFixed, ih]

theorem natToHexFixed_mem :
    ∀ (k n : Nat), ∀ c ∈ natToHexFixed k n, ∃ d, d < 16 ∧ c = toHexChar d := by
  intro k
  induction k with
  | zero => intro n c hc; simp [natToHexFixed] at hc
  | succ k ih =>
      intro n c hc
      simp only [natToHexFixed, List.mem_append, List.mem_singleton] at hc
      rcases hc with hc | rfl
      · exact ih (n / 16) c hc
      · exact ⟨n % 16, Nat.mod_lt _ (by norm_num), rfl⟩

theorem uuidChars_cases (n : Nat) :
    ∀ c ∈ uuidChars n, c = '-' ∨ c ∈ natToHexFixed 32 (n % 2 ^ 128) := by
  intro c hc
  simp only [uuidChars] at hc
  rcases List.mem_append.mp hc with h | h
  · exact Or.inr (List.take_subset _ _ h)
  · rcases List.mem_cons.mp h with h | h
    · exact Or.inl h
    · rcases List.mem_append.mp h with h | h
      · exact Or.inr (List.drop_subset _ _ (List.take_subset _ _ h))
      · rcases List.mem_cons.mp h with h | h
        · exact Or.inl h
        · rcases List.mem_append.mp h with h | h
          · exact Or.inr (List.drop_subset _ _ (List.take_subset _ _ h))
          · rcases List.mem_cons.mp h with h | h
            · exact Or.inl h
            · rcases List.mem_append.mp h with h | h
              · exact Or.inr (List.drop_subset _ _ (List.take_subset _ _ h))
              · rcases List.mem_cons.mp h with h | h
                · exact Or.inl h
                · exact Or.inr (List.drop_subset _ _ h)

theorem uuidChars_mem (n : Nat) :
    ∀ c ∈ uuidChars n, c = '-' ∨ ∃ d, d < 16 ∧ c = toHexChar d := by
  intro c hc
  rcases uuidChars_cases n c hc with h | h
  · exact Or.inl h
  · exact Or.inr (natToHexFixed_mem 32 _ c h)

theorem removeAllFuel_skip (p : Char) (ps : List Char) :
    ∀ (fuel : Nat) (l : List Char), (∀ c ∈ l, ¬(c = p)) →
      removeAllFuel p ps fuel l = l := by
  intro fuel
  induction fuel with
  | zero => intro l h; cases l <;> rfl
  | succ f ih =>
      intro l h
      cases l with
      | nil => rfl
      | cons c rest =>
          have hc : ¬(c = p) := h c (by simp)
          have hpc : (p == c) = false := by
            simp only [beq_eq_false_iff_ne, ne_eq]
            exact fun hpcc => hc hpcc.symm
          have hlw : leadsWith (p :: ps) (c :: rest) = false := by
            simp [leadsWith, hpc]
          simp only [removeAllFuel, hlw, Bool.false_eq_true, if_false]
          rw [ih rest (fun x hx => h x (by simp [hx]))]

theorem removeAll_skip (p : Char) (ps l : List Char)
    (h : ∀ c ∈ l, ¬(c = p)) : removeAll p ps l = l :=
  removeAllFuel_skip p ps l.length l h

theorem removeAllFuel_single :
    ∀ (fuel : Nat) (l : List Char), l.length ≤ fuel →
      removeAllFuel '-' [] fuel l = l.filter (fun c => !(c == '-')) := by
  intro fuel
  induction fuel with
  | zero =>
      intro l h
      have : l = [] := List.length_eq_zero.mp (Nat.le_zero.mp h)
      subst this
      rfl
  | succ f ih =>
      intro l h
      cases l with
      | nil => rfl
      | cons c rest =>
          have hrest : rest.length ≤ f := by
            simp only [List.length_cons] at h
            omega
          by_cases hc : c = '-'
          · subst hc
            have hlw : leadsWith ['-'] ('-' :: rest) = true := by
              simp [leadsWith]
            simp only [removeAllFuel, hlw, if_true, List.length_nil,
              List.drop_zero, List.filter_cons]
            rw [ih rest hrest]
            simp
          · have hlw : leadsWith ['-'] (c :: rest) = false := by
              simp only [leadsWith, Bool.and_true]
              simp only [beq_eq_false_iff_ne, ne_eq]
              exact fun hpcc => hc hpcc.symm
            simp only [removeAllFuel, hlw, Bool.false_eq_true, if_false,
              List.filter_cons]
            rw [ih rest hrest]
            have : (!(c == '-')) = true := by
              simp only [Bool.not_eq_eq_eq_not, Bool.not_true, beq_eq_false_iff_ne, ne_eq]
              exact hc
            simp [this]

theorem removeAll_single (l : List Char) :
    removeAll '-' [] l = l.filter (fun c => !(c == '-')) :=
  removeAllFuel_single l.length l (Nat.le_refl _)

theorem stripEnds_of_none (p : Char → Bool) (l : List Char)
    (h : ∀ c ∈ l, p c = false) : stripEnds p l = l := by
  have h1 : l.dropWhile p = l := by
    cases l with
    | nil => rfl
    | cons c rest => rw [List.dropWhile_cons, if_neg (by simp [h c (by simp)])]
  unfold stripEnds
  rw [h1]
  have h2 : l.reverse.dropWhile p = l.reverse := by
    cases hr : l.reverse with
    | nil => rfl
    | cons c rest =>
        have hc : c ∈ l := by
          rw [← List.mem_reverse, hr]
          simp
        rw [List.dropWhile_cons, if_neg (by simp [h c hc])]
  rw [h2, List.reverse_reverse]

theorem uuidChars_strip_hyphens (n : Nat) :
    removeAll '-' [] (uuidChars n) = natToHexFixed 32 (n % 2 ^ 128) := by
  rw [removeAll_single]
  have hs : ∀ c ∈ natToHexFixed 32 (n % 2 ^ 128), (!(c == '-')) = true := by
    intro c hc
    obtain ⟨d, hd, rfl⟩ := natToHexFixed_mem 32 (n % 2 ^ 128) c hc
    have hne := (toHexChar_notSpecial d hd).2.2.2.1
    simp only [Bool.not_eq_eq_eq_not, Bool.not_true, beq_eq_false_iff_ne, ne_eq]
    exact hne
  have hsub : ∀ l2 : List Char, l2 ⊆ natToHexFixed 32 (n % 2 ^ 128) →
      List.filter (fun c => !(c == '-')) l2 = l2 :=
    fun l2 hl2 => List.filter_eq_self.mpr (fun a ha => hs a (hl2 ha))
  simp only [uuidChars, List.filter_append, List.filter_cons]
  have hdash : (!(('-' : Char) == '-')) = false := by decide
  simp only [hdash, Bool.false_eq_true, if_false]
  rw [hsub _ (List.take_subset _ _),
    hsub _ (List.Subset.trans (List.take_subset _ _) (List.drop_subset _ _)),
    hsub _ (List.Subset.trans (List.take_subset _ _) (List.drop_subset _ _)),
    hsub _ (List.Subset.trans (List.take_subset _ _) (List.drop_subset _ _)),
    hsub _ (List.drop_subset _ _)]
  have h20 : ((natToHexFixed 32 (n % 2 ^ 128)).drop 16).take 4 ++
      (natToHexFixed 32 (n % 2 ^ 128)).drop 20 =
      (natToHexFixed 32 (n % 2 ^ 128)).drop 16 := by
    have := List.take_append_drop 4 ((natToHexFixed 32 (n % 2 ^ 128)).drop 16)
    rw [List.drop_drop] at this
    norm_num at this
    exact this
  have h16 : ((natToHexFixed 32 (n % 2 ^ 128)).drop 12).take 4 ++
      (natToHexFixed 32 (n % 2 ^ 128)).drop 16 =
      (natToHexFixed 32 (n % 2 ^ 128)).drop 12 := by
    have := List.take_append_drop 4 ((natToHexFixed 32 (n % 2 ^ 128)).drop 12)
    rw [List.drop_drop] at this
    norm_num at this
    exact this
  have h12 : ((natToHexFixed 32 (n % 2 ^ 128)).drop 8).take 4 ++
      (natToHexFixed 32 (n % 2 ^ 128)).drop 12 =
      (natToHexFixed 32 (n % 2 ^ 128)).drop 8 := by
    have := List.take_append_drop 4 ((natToHexFixed 32 (n % 2 ^ 128)).drop 8)
    rw [List.drop_drop] at this
    norm_num at this
    exact this
  rw [h20, h16, h12, List.take_append_drop]

theorem hexGo_bound :
    ∀ (l : List Char) (acc : Nat),
      (∀ c ∈ l, ∃ d, d < 16 ∧ c = toHexChar d) →
      ∃ m, hexGo acc l = some m ∧ m < (acc + 1) * 16 ^ l.length := by
  intro l
  induction l with
  | nil =>
      intro acc _
      exact ⟨acc, rfl, by simp⟩
  | cons c rest ih =>
      intro acc h
      obtain ⟨d, hd, rfl⟩ := h c (by simp)
      have hnotu : toHexChar d ≠ '_' := (toHexChar_notSpecial d hd).2.2.2.2.2.2.2
      have hv : hexVal? (toHexChar d) = some d := toHexChar_hexVal d hd
      obtain ⟨m, hm, hb⟩ := ih (16 * acc + d) (fun x hx => h x (by simp [hx]))
      refine ⟨m, ?_, ?_⟩
      · unfold hexGo
        rw [if_neg hnotu, hv]
        exact hm
      · have hfin : m < (acc + 1) * 16 ^ (rest.length + 1) := by
          calc m < (16 * acc + d + 1) * 16 ^ rest.length := hb
            _ ≤ (16 * acc + 16) * 16 ^ rest.length :=
                Nat.mul_le_mul_right _ (by omega)
            _ = (acc + 1) * 16 ^ (rest.length + 1) := by ring
        simpa using hfin

theorem hexDigits_bound (l : List Char) (hne : l ≠ [])
    (h : ∀ c ∈ l, ∃ d, d < 16 ∧ c = toHexChar d) :
    ∃ m, hexDigits? l = some m ∧ m < 16 ^ l.length := by
  cases l with
  | nil => exact absurd rfl hne
  | cons c rest =>
      obtain ⟨d, hd, rfl⟩ := h c (by simp)
      obtain ⟨m, hm, hb⟩ := hexGo_bound rest d (fun x hx => h x (by simp [hx]))
      refine ⟨m, ?_, ?_⟩
      · show (match hexVal? (toHexChar d) with
            | some d2 => hexGo d2 rest
            | none => none) = some m
        rw [toHexChar_hexVal d hd]
        exact hm
      · have hfin : m < 16 ^ (rest.length + 1) := by
          calc m < (d + 1) * 16 ^ rest.length := hb
            _ ≤ 16 * 16 ^ rest.length := Nat.mul_le_mul_right _ (by omega)
            _ = 16 ^ (rest.length + 1) := by ring
        simpa using hfin

theorem pyUUIDok_eq (s : String) :
    pyUUIDok s =
      (if (removeAll '-' [] (stripEnds isBrace (removeAll 'u' ['u', 'i', 'd', ':']
          (removeAll 'u' ['r', 'n', ':'] s.data)))).length = 32 then
        match pyInt16? (removeAll '-' [] (stripEnds isBrace (removeAll 'u' ['u', 'i', 'd', ':']
          (removeAll 'u' ['r', 'n', ':'] s.data)))) with
        | some k => decide (0 ≤ k ∧ k < (2 : Int) ^ 128)
        | none => false
      else false) := rfl

/-- The canonical rendering produced by `str(uuid.uuid4())` always
passes the `uuid.UUID` shape check of `get_game`. -/
theorem pyUUIDok_uuidStr (n : Nat) : pyUUIDok (uuidStr n) = true := by
  have hmem := uuidChars_mem n
  have hnotu : ∀ c ∈ uuidChars n, ¬(c = 'u') := by
    intro c hc
    rcases hmem c hc with rfl | ⟨d, hd, rfl⟩
    · decide
    · exact (toHexChar_notSpecial d hd).2.2.1
  have h1 : removeAll 'u' ['r', 'n', ':'] (uuidChars n) = uuidChars n :=
    removeAll_skip _ _ _ hnotu
  have h2 : removeAll 'u' ['u', 'i', 'd', ':'] (uuidChars n) = uuidChars n :=
    removeAll_skip _ _ _ hnotu
  have h3 : stripEnds isBrace (uuidChars n) = uuidChars n := by
    apply stripEnds_of_none
    intro c hc
    rcases hmem c hc with rfl | ⟨d, hd, rfl⟩
    · decide
    · exact (toHexChar_notSpecial d hd).2.1
  have h4 := uuidChars_strip_hyphens n
  have hlen : (natToHexFixed 32 (n % 2 ^ 128)).length = 32 :=
    natToHexFixed_length 32 _
  have hxmem := natToHexFixed_mem 32 (n % 2 ^ 128)
  have hstrip : stripEnds isPyWs (natToHexFixed 32 (n % 2 ^ 128)) =
      natToHexFixed 32 (n % 2 ^ 128) := by
    apply stripEnds_of_none
    intro c hc
    obtain ⟨d, hd, rfl⟩ := hxmem c hc
    exact (toHexChar_notSpecial d hd).1
  obtain ⟨m, hm, hb⟩ :=
    hexDigits_bound (natToHexFixed 32 (n % 2 ^ 128))
      (by intro hnil; rw [hnil] at hlen; simp at hlen) hxmem
  have hint : pyInt16? (natToHexFixed 32 (n % 2 ^ 128)) = some ((m : Nat) : Int) := by
    cases hx : natToHexFixed 32 (n % 2 ^ 128) with
    | nil => rw [hx] at hlen; simp at hlen
    | cons c1 t =>
        cases t with
        | nil => rw [hx] at hlen; simp at hlen
        | cons c2 rest =>
            obtain ⟨d1, hd1, hc1⟩ := hxmem c1 (by rw [hx]; simp)
            obtain ⟨d2, hd2, hc2⟩ := hxmem c2 (by rw [hx]; simp)
            have hstrip2 : stripEnds isPyWs (c1 :: c2 :: rest) = c1 :: c2 :: rest := by
              rw [← hx]; exact hstrip
            have hnp : ¬(c1 = '+') := by
              rw [hc1]; exact (toHexChar_notSpecial d1 hd1).2.2.2.2.1
            have hnm : ¬(c1 = '-') := by
              rw [hc1]; exact (toHexChar_notSpecial d1 hd1).2.2.2.1
            have hnx : ¬(c1 = '0' ∧ (c2 = 'x' ∨ c2 = 'X')) := by
              rintro ⟨-, hx2 | hx2⟩
              · exact absurd hx2 (by rw [hc2]; exact (toHexChar_notSpecial d2 hd2).2.2.2.2.2.1)
              · exact absurd hx2 (by rw [hc2]; exact (toHexChar_notSpecial d2 hd2).2.2.2.2.2.2.1)
            have hdig : hexDigits? (c1 :: c2 :: rest) = some m := by
              rw [← hx]; exact hm
            have step1 : pyInt16? (c1 :: c2 :: rest) =
                (hexBody? (c1 :: c2 :: rest)).map (fun m2 => (m2 : Int)) := by
              unfold pyInt16?
              rw [hstrip2]
              show (if c1 = '+' then
                      (hexBody? (c2 :: rest)).map (fun m2 => (m2 : Int))
                    else if c1 = '-' then
                      (hexBody? (c2 :: rest)).map (fun m2 => -(m2 : Int))
                    else (hexBody? (c1 :: c2 :: rest)).map (fun m2 => (m2 : Int))) =
                  (hexBody? (c1 :: c2 :: rest)).map (fun m2 => (m2 : Int))
              rw [if_neg hnp, if_neg hnm]
            have step2 : hexBody? (c1 :: c2 :: rest) = hexDigits? (c1 :: c2 :: rest) := by
              show (if c1 = '0' ∧ (c2 = 'x' ∨ c2 = 'X') then hexTail? rest
                    else hexDigits? (c1 :: c2 :: rest)) = hexDigits? (c1 :: c2 :: rest)
              rw [if_neg hnx]
            rw [step1, step2, hdig]
            rfl
  have hb2 : m < 2 ^ 128 := by
    have he : (16 : Nat) ^ 32 = 2 ^ 128 := by norm_num
    rw [hlen, he] at hb
    exact hb
  have hdata : (uuidStr n).data = uuidChars n := rfl
  rw [pyUUIDok_eq, hdata, h1, h2, h3, h4, hlen, hint]
  show (if (32 : Nat) = 32 then
      decide (0 ≤ ((m : Nat) : Int) ∧ ((m : Nat) : Int) < (2 : Int) ^ 128)
    else false) = true
  rw [if_pos rfl]
  simp only [decide_eq_true_eq]
  exact ⟨Int.natCast_nonneg m, by exact_mod_cast hb2⟩

theorem univNewlines_no_cr :
    ∀ l : List Char, '\r' ∉ l → univNewlines l = l := by
  intro l
  induction l with
  | nil => intro _; rfl
  | cons c rest ih =>
      intro h
      have hc : ¬(c = '\r') := by
        intro e
        exact h (by rw [← e]; exact List.mem_cons_self c rest)
      have htail : '\r' ∉ rest := fun e => h (List.mem_cons_of_mem c e)
      cases rest with
      | nil =>
          unfold univNewlines
          rw [if_neg hc]
      | cons c2 rest2 =>
          unfold univNewlines
          rw [if_neg hc, ih htail]

theorem pyReadText_no_cr (s : String) (h : '\r' ∉ s.data) :
    pyReadText s = s := by
  unfold pyReadText
  rw [univNewlines_no_cr s.data h]

set_option maxRecDepth 100000 in
/-- Claim C1, counterexample: the round trip is not byte-identical on
every fixed valid HTML output.  When the sanitized content contains a
carriage return, `write_text` stores it verbatim but the text-mode
`read_text` in `get_game` translates the `"\r\n"` to `"\n"`, so the
served body differs from the sanitized output. -/
theorem c1_counterexample :
    get_game (postGenerate [] "make a math game"
        (Except.ok "<!DOCTYPE html>\r\n<html></html>") 0).1 (uuidStr 0) ≠
      GetGameResult.ok (sanitizeFences "<!DOCTYPE html>\r\n<html></html>") := by
  decide

/-- Claim C1 as amended: with the generation oracle returning a fixed
raw text whose sanitized form passes the HTML check,
`POST /api/generate` persists exactly the sanitized text under the
fresh canonical identifier and answers with that identifier and the
retrieval path `/api/game/` followed by it; a subsequent
`GET /api/game/{id}` on the updated store returns the sanitized output
after universal-newline translation — byte-identical to the sanitized
output whenever it contains no carriage return. -/
theorem c1_round_trip_amended (store : GameStore) (prompt raw : String)
    (entropy : Nat)
    (hv : validGameRequest prompt = true)
    (hh : isValidHtmlDoc (sanitizeFences raw) = true) :
    postGenerate store prompt (Except.ok raw) entropy =
      (writeStore store (uuidStr entropy) (sanitizeFences raw),
        GenerateResult.ok
          { game_id := uuidStr entropy
            message := "Game generated successfully!"
            play_url := "/api/game/" ++ uuidStr entropy }) ∧
    get_game (postGenerate store prompt (Except.ok raw) entropy).1 (uuidStr entropy) =
      GetGameResult.ok (pyReadText (sanitizeFences raw)) ∧
    ('\r' ∉ (sanitizeFences raw).data →
      get_game (postGenerate store prompt (Except.ok raw) entropy).1 (uuidStr entropy) =
        GetGameResult.ok (sanitizeFences raw)) := by
  have hpost : postGenerate store prompt (Except.ok raw) entropy =
      (writeStore store (uuidStr entropy) (sanitizeFences raw),
        GenerateResult.ok
          { game_id := uuidStr entropy
            message := "Game generated successfully!"
            play_url := "/api/game/" ++ uuidStr entropy }) := by
    simp [postGenerate, hv, generate_game, hh]
  have hget : get_game (postGenerate store prompt (Except.ok raw) entropy).1
      (uuidStr entropy) = GetGameResult.ok (pyReadText (sanitizeFences raw)) := by
    rw [hpost]
    simp [get_game, pyUUIDok_uuidStr, writeStore, lookupStore]
  refine ⟨hpost, hget, fun hcr => ?_⟩
  rw [hget, pyReadText_no_cr _ hcr]

set_option maxRecDepth 100000 in
theorem c1_witness :
    get_game (postGenerate [] "make a math game"
        (Except.ok "<!DOCTYPE html><html></html>") 0).1 (uuidStr 0) =
      GetGameResult.ok (sanitizeFences "<!DOCTYPE html><html></html>") :=
  (c1_round_trip_amended [] "make a math game" "<!DOCTYPE html><html></html>" 0
    (by decide) (by decide)).2.2 (by decide)

theorem storeInvariant_write (store : GameStore) (gid doc : String)
    (hinv : storeInvariant store) (hdoc : isValidHtmlDoc doc = true) :
    storeInvariant (writeStore store gid doc) := by
  obtain ⟨hval, hnd⟩ := hinv
  constructor
  · intro p hp
    rcases List.mem_cons.mp hp with rfl | hp
    · exact hdoc
    · exact hval p (List.mem_filter.mp hp).1
  · simp only [writeStore, List.map_cons]
    apply List.nodup_cons.mpr
    refine ⟨?_, ?_⟩
    · intro hmemk
      obtain ⟨q, hq, hq1⟩ := List.mem_map.mp hmemk
      have hkeep := (List.mem_filter.mp hq).2
      rw [hq1] at hkeep
      simp at hkeep
    · exact List.Nodup.sublist ((List.filter_sublist store).map Prod.fst) hnd

theorem storeInvariant_apply (store : GameStore) (op : Op)
    (h : storeInvariant store) : storeInvariant (applyOp store op) := by
  cases op with
  | retrieve gid => exact h
  | generate prompt g entropy =>
      by_cases hv : validGameRequest prompt = true
      · cases g with
        | error e => simpa [applyOp, postGenerate, hv, generate_game] using h
        | ok raw =>
            by_cases hh : isValidHtmlDoc (sanitizeFences raw) = true
            · have hw := storeInvariant_write store (uuidStr entropy)
                (sanitizeFences raw) h hh
              simpa [applyOp, postGenerate, hv, generate_game, hh] using hw
            · simpa [applyOp, postGenerate, hv, generate_game, hh] using h
      · have hv2 : validGameRequest prompt = false := by simpa using hv
        simpa [applyOp, postGenerate, hv2] using h

theorem runOps_invariant :
    ∀ (ops : List Op) (store : GameStore),
      storeInvariant store → storeInvariant (runOps store ops) := by
  intro ops
  induction ops with
  | nil => intro store h; exact h
  | cons op rest ih =>
      intro store h
      exact ih _ (storeInvariant_apply store op h)

theorem storeInvariant_nil : storeInvariant [] := by
  constructor
  · intro p hp
    simp at hp
  · simp

/-- Claim C7: after any sequence of generation and retrieval operations
starting from the empty store, every stored identifier maps to exactly
one document (no duplicate stems) and every stored document begins
case-insensitively with the HTML declaration token — the write path
checks it before writing; and retrieval serves the stored content
(through the text-mode `read_text`, its only transformation) whenever
the identifier parses and is present, performing no validity re-check
of the content. -/
theorem c7_store_invariant :
    (∀ ops : List Op, storeInvariant (runOps [] ops)) ∧
    (∀ (store : GameStore) (game_id content : String),
      pyUUIDok game_id = true → lookupStore store game_id = some content →
      get_game store game_id = GetGameResult.ok (pyReadText content)) := by
  constructor
  · intro ops
    exact runOps_invariant ops [] storeInvariant_nil
  · intro store gid content h1 h2
    simp [get_game, h1, h2]

set_option maxRecDepth 100000 in
theorem c7_witness :
    get_game [("123e4567-e89b-12d3-a456-426614174000", "<p>unchecked</p>")]
        "123e4567-e89b-12d3-a456-426614174000" =
      GetGameResult.ok "<p>unchecked</p>" :=
  c7_store_invariant.2 _ _ "<p>unchecked</p>" (by decide) (by decide)

set_option maxRecDepth 100000 in
/-- Claim C10: the `uuid.UUID` shape check also accepts non-canonical
renderings — 32 undelimited hex digits, a braced form, a `urn:uuid:`
form — and the file lookup then uses the original string verbatim, so a
non-canonical rendering of a stored game's identifier yields the 404
not-found error (not 400) even though the same document is returned
under its canonical hyphenated key. -/
theorem c10_noncanonical_ids :
    pyUUIDok "123e4567e89b12d3a456426614174000" = true ∧
    pyUUIDok "\x7b123e4567-e89b-12d3-a456-426614174000\x7d" = true ∧
    pyUUIDok "urn:uuid:123e4567-e89b-12d3-a456-426614174000" = true ∧
    ∀ (store : GameStore) (content : String),
      lookupStore store "123e4567e89b12d3a456426614174000" = none →
      lookupStore store "123e4567-e89b-12d3-a456-426614174000" = some content →
      get_game store "123e4567e89b12d3a456426614174000" =
          GetGameResult.httpError 404 "Game not found" ∧
        get_game store "123e4567-e89b-12d3-a456-426614174000" =
          GetGameResult.ok (pyReadText content) := by
  refine ⟨by decide, by decide, by decide, ?_⟩
  intro store content h1 h2
  constructor
  · have hp : pyUUIDok "123e4567e89b12d3a456426614174000" = true := by decide
    simp [get_game, hp, h1]
  · have hp : pyUUIDok "123e4567-e89b-12d3-a456-426614174000" = true := by decide
    simp [get_game, hp, h2]

set_option maxRecDepth 100000 in
theorem c10_witness :
    get_game [("123e4567-e89b-12d3-a456-426614174000", "<!DOCTYPE html>x")]
        "123e4567e89b12d3a456426614174000" =
        GetGameResult.httpError 404 "Game not found" ∧
      get_game [("123e4567-e89b-12d3-a456-426614174000", "<!DOCTYPE html>x")]
        "123e4567-e89b-12d3-a456-426614174000" =
        GetGameResult.ok "<!DOCTYPE html>x" :=
  c10_noncanonical_ids.2.2.2 _ "<!DOCTYPE html>x" (by decide) (by decide)

end Kinzy
